import Mathlib

/-!
A verification development for the node core of the snarkOS repository.

The Rust sources are shallowly embedded: machine integers become `Fin` of the
appropriate bound (u8 is `Fin 256`, u16 is `Fin 65536`, u32 is `Fin (2 ^ 32)`,
u64 is `Fin (2 ^ 64)`), fallible functions return `Except`, and functions that
mutate `&mut self` return the updated value alongside their `Result`.
External collaborators (the capnp codec, the cryptographic verifiers, the
ledger) are passed in as explicit function parameters, mirroring §6.2 of the
specification.
-/

deriving instance DecidableEq for Except

/-- A byte, i.e. Rust's u8. -/
abbrev Byte := Fin 256

/-- A fixed-length byte sequence, used for IP octets and block hashes. -/
abbrev Octets (n : Nat) := { l : List Byte // l.length = n }

/-- Rust std's `SocketAddr`: an IPv4 or IPv6 address paired with a u16 port. -/
inductive SocketAddr
  | v4 (ip : Octets 4) (port : Fin 65536)
  | v6 (ip : Octets 16) (port : Fin 65536)
deriving DecidableEq

/-- The set of peer statuses from `network/src/peers/peer_info.rs`. -/
inductive PeerStatus
  | Connecting
  | Connected
  | Disconnected
  | NeverConnected
deriving DecidableEq

/-- The network error variants from `snarkos_errors` that the embedded
functions construct or propagate. -/
inductive NetworkError
  | peerAlreadyConnected
  | peerAlreadyDisconnected
  | peerIsDisconnected
  | peerCountInvalid
  | syncIntervalInvalid
  | consensusFailure
  | messageFailure
deriving DecidableEq

/-- The quality-of-connection data of a peer (`PeerQuality` in
`network/src/peers/peer_info.rs`); timestamps are modelled as naturals. -/
structure PeerQuality where
  last_seen : Option Nat := none
  expecting_pong : Bool := false
  last_ping_sent : Option Nat := none
  rtt_ms : Fin (2 ^ 64) := 0
  failures : Byte := 0
deriving DecidableEq

/-- The `PeerInfo` struct from `network/src/peers/peer_info.rs`. -/
structure PeerInfo where
  address : SocketAddr
  status : PeerStatus
  first_seen : Option Nat
  last_connected : Option Nat
  last_disconnected : Option Nat
  connected_count : Fin (2 ^ 64)
  disconnected_count : Fin (2 ^ 64)
  quality : PeerQuality
deriving DecidableEq

namespace PeerInfo

/-- Constructor `PeerInfo::new`. -/
def new (address : SocketAddr) : PeerInfo where
  address := address
  status := .NeverConnected
  first_seen := none
  last_connected := none
  last_disconnected := none
  connected_count := 0
  disconnected_count := 0
  quality := {}

/-- Method `PeerInfo::set_connecting`; `now` stands for `Utc::now()`.  The
Rust method mutates `&mut self` and returns a `Result<(), NetworkError>`, so
the embedding returns the result together with the (possibly updated) value. -/
def set_connecting (p : PeerInfo) (now : Nat) : Except NetworkError Unit × PeerInfo :=
  match p.status with
  | .Disconnected | .NeverConnected =>
    (.ok (), { p with
      status := .Connecting
      first_seen := if p.first_seen.isNone then some now else p.first_seen })
  | .Connecting | .Connected => (.error .peerAlreadyConnected, p)

/-- Method `PeerInfo::set_connected`; `now` stands for `Utc::now()`. -/
def set_connected (p : PeerInfo) (now : Nat) : Except NetworkError Unit × PeerInfo :=
  match p.status with
  | .Connecting =>
    (.ok (), { p with
      status := .Connected
      last_connected := some now
      connected_count := p.connected_count + 1 })
  | .Connected => (.error .peerAlreadyConnected, p)
  | .Disconnected | .NeverConnected => (.error .peerIsDisconnected, p)

/-- Method `PeerInfo::set_disconnected`; `now` stands for `Utc::now()`. -/
def set_disconnected (p : PeerInfo) (now : Nat) : Except NetworkError Unit × PeerInfo :=
  match p.status with
  | .Connected | .Connecting =>
    (.ok (), { p with
      status := .Disconnected
      last_disconnected := some now
      disconnected_count := p.disconnected_count + 1 })
  | .Disconnected | .NeverConnected => (.error .peerAlreadyDisconnected, p)

end PeerInfo

/-- A zero IPv4 socket address, used as a concrete sample input. -/
def addr0 : SocketAddr := .v4 ⟨[0, 0, 0, 0], rfl⟩ 0

/-- A second concrete IPv4 socket address, distinct from `addr0`. -/
def addr1 : SocketAddr := .v4 ⟨[127, 0, 0, 1], rfl⟩ 4130

/-- A third concrete IPv4 socket address. -/
def addr2 : SocketAddr := .v4 ⟨[192, 168, 1, 1], rfl⟩ 4131

/-- The consensus parameters from `snarkos_consensus` that the embedded code
inspects: the network ID (a `Network` enum, modelled by its `id()` value). -/
structure ConsensusParameters where
  network_id : Nat
deriving DecidableEq

/-- The `Environment` struct from `network/src/environment.rs`.  The opaque
`Arc` handles to the storage, the memory pool and the DPC parameters are kept
as type parameters; `sync_manager` starts as `None` and is represented by an
`Option Unit` placeholder. -/
structure Environment (S M P : Type) where
  storage : S
  memory_pool : M
  consensus_parameters : ConsensusParameters
  dpc_parameters : P
  network_id : Nat
  sync_manager : Option Unit
  local_address : SocketAddr
  minimum_number_of_connected_peers : Fin 65536
  maximum_number_of_connected_peers : Fin 65536
  sync_interval : Fin (2 ^ 64)
  memory_pool_interval : Byte
  bootnodes : List SocketAddr
  is_bootnode : Bool
  is_miner : Bool
deriving DecidableEq

/-- Constructor `Environment::new` from `network/src/environment.rs`.
The `String::parse::<SocketAddr>` call is an external collaborator and is
passed in as `parseSocketAddr`; addresses that fail to parse are skipped,
exactly as in the source. -/
def Environment.new {S M P : Type} (storage : S) (memory_pool : M)
    (consensus_parameters : ConsensusParameters) (dpc_parameters : P)
    (local_address : SocketAddr)
    (minimum_number_of_connected_peers : Fin 65536)
    (maximum_number_of_connected_peers : Fin 65536)
    (sync_interval : Fin (2 ^ 64)) (memory_pool_interval : Byte)
    (parseSocketAddr : String → Option SocketAddr)
    (bootnodes_addresses : List String)
    (is_bootnode is_miner : Bool) : Except NetworkError (Environment S M P) :=
  if minimum_number_of_connected_peers = 0 ∨ maximum_number_of_connected_peers = 0 then
    .error .peerCountInvalid
  else if sync_interval.val < 2 ∨ sync_interval.val > 300 then
    .error .syncIntervalInvalid
  else
    .ok {
      storage := storage
      memory_pool := memory_pool
      consensus_parameters := consensus_parameters
      dpc_parameters := dpc_parameters
      network_id := consensus_parameters.network_id
      sync_manager := none
      local_address := local_address
      minimum_number_of_connected_peers := minimum_number_of_connected_peers
      maximum_number_of_connected_peers := maximum_number_of_connected_peers
      sync_interval := sync_interval
      memory_pool_interval := memory_pool_interval
      bootnodes := bootnodes_addresses.filterMap parseSocketAddr
      is_bootnode := is_bootnode
      is_miner := is_miner }

/-- The handshake status enum from
`network/src/external/protocol/handshake/handshake.rs`. -/
inductive HandshakeStatus
  | Waiting
  | Accepted
  | Rejected
deriving DecidableEq

/-- The handshake error variants from `snarkos_errors` used by the embedded
code; `invalidNonce` carries the stored and the received nonce. -/
inductive HandshakeError
  | invalidNonce (stored received : Fin (2 ^ 64))
deriving DecidableEq

/-- The `Verack` message from `network/src/external/message_types/verack.rs`:
a u64 nonce plus the sender and receiver socket addresses. -/
structure Verack where
  nonce : Fin (2 ^ 64)
  sender : SocketAddr
  receiver : SocketAddr
deriving DecidableEq

/-- The `Handshake` struct from
`network/src/external/protocol/handshake/handshake.rs`.  The `channel` field
(an `Arc<Channel>` wrapping TCP streams) carries no data relevant to the
protocol state and is omitted. -/
structure Handshake where
  state : HandshakeStatus
  height : Fin (2 ^ 32)
  nonce : Fin (2 ^ 64)
deriving DecidableEq

/-- Method `Handshake::accept`: on a nonce mismatch the state becomes
`Rejected` and an `InvalidNonce` error is returned; on a match the state
moves from `Waiting` to `Accepted`, and is otherwise left unchanged. -/
def Handshake.accept (h : Handshake) (message : Verack) :
    Except HandshakeError Unit × Handshake :=
  if h.nonce ≠ message.nonce then
    (.error (.invalidNonce h.nonce message.nonce), { h with state := .Rejected })
  else if h.state = .Waiting then
    (.ok (), { h with state := .Accepted })
  else
    (.ok (), h)

/-- The message error variants from `snarkos_errors` used by the embedded
code: a length mismatch (actual, expected) and a bincode decoding failure. -/
inductive MessageError
  | invalidLength (got expected : Nat)
  | bincodeFailure
deriving DecidableEq

/-- Little-endian byte encoding of a natural number into `k` bytes, as used
by bincode's default (fixed-width, little-endian) integer encoding. -/
def leBytes : Nat → Nat → List Byte
  | 0, _ => []
  | k + 1, n => ⟨n % 256, Nat.mod_lt n (by norm_num)⟩ :: leBytes k (n / 256)

/-- The value denoted by a little-endian byte sequence. -/
def leVal : List Byte → Nat
  | [] => 0
  | b :: bs => b.val + 256 * leVal bs

/-- The `is_ipv4` discriminator of a socket address. -/
def SocketAddr.isV4 : SocketAddr → Bool
  | .v4 _ _ => true
  | .v6 _ _ => false

/-- The bincode (default configuration) serialization of a `SocketAddr`:
a little-endian u32 enum-variant tag (0 for V4, 1 for V6), the IP octets,
then the little-endian u16 port.  This is the encoding produced by serde's
non-human-readable `Serialize` impl for `std::net::SocketAddr`. -/
def bincodeSocketAddr : SocketAddr → List Byte
  | .v4 ip port => leBytes 4 0 ++ ip.val ++ leBytes 2 port.val
  | .v6 ip port => leBytes 4 1 ++ ip.val ++ leBytes 2 port.val

/-- The bincode deserialization of a `SocketAddr` from an exact slice, as
invoked by `Verack::deserialize` on 10-byte subslices: a V4 address consumes
exactly the 10 given bytes; a V6 tag would require 18 further bytes, which a
10-byte slice cannot supply, so it fails (an EOF error in bincode, collapsed
here into `bincodeFailure` along with invalid-tag and length errors). -/
def bincodeSocketAddrDe (bytes : List Byte) : Except MessageError SocketAddr :=
  match bytes with
  | t0 :: t1 :: t2 :: t3 :: rest =>
    if t0 = 0 ∧ t1 = 0 ∧ t2 = 0 ∧ t3 = 0 then
      match rest with
      | [o0, o1, o2, o3, p0, p1] =>
        .ok (.v4 ⟨[o0, o1, o2, o3], rfl⟩
          ⟨p0.val + 256 * p1.val, by have := p0.isLt; have := p1.isLt; omega⟩)
      | _ => .error .bincodeFailure
    else if t0 = 1 ∧ t1 = 0 ∧ t2 = 0 ∧ t3 = 0 then
      match rest with
      | [o0, o1, o2, o3, o4, o5, o6, o7, o8, o9, o10, o11, o12, o13, o14, o15, p0, p1] =>
        .ok (.v6 ⟨[o0, o1, o2, o3, o4, o5, o6, o7, o8, o9, o10, o11, o12, o13, o14, o15], rfl⟩
          ⟨p0.val + 256 * p1.val, by have := p0.isLt; have := p1.isLt; omega⟩)
      | _ => .error .bincodeFailure
    else .error .bincodeFailure
  | _ => .error .bincodeFailure

/-- Method `Verack::serialize` from
`network/src/external/message_types/verack.rs`: the bincode bytes of the
nonce, then of the receiver, then of the sender. -/
def Verack.serialize (v : Verack) : List Byte :=
  leBytes 8 v.nonce.val ++ bincodeSocketAddr v.receiver ++ bincodeSocketAddr v.sender

/-- Method `Verack::deserialize`: rejects any input whose length is not
exactly 28, then decodes the nonce from bytes 0..8, the receiver from bytes
8..18 and the sender from bytes 18..28. -/
def Verack.deserialize (vec : List Byte) : Except MessageError Verack :=
  if vec.length = 28 then do
    let receiver ← bincodeSocketAddrDe ((vec.drop 8).take 10)
    let sender ← bincodeSocketAddrDe ((vec.drop 18).take 10)
    .ok {
      nonce := ⟨leVal (vec.take 8), by
        have hbound : ∀ l : List Byte, leVal l < 256 ^ l.length := by
          intro l
          induction l with
          | nil => simp [leVal]
          | cons b t ih =>
            have hb := b.isLt
            simp only [leVal, List.length_cons, pow_succ]
            omega
        calc leVal (vec.take 8) < 256 ^ (vec.take 8).length := hbound _
          _ ≤ 256 ^ 8 := Nat.pow_le_pow_right (by norm_num)
            (by rw [List.length_take]; exact min_le_left _ _)
          _ = 2 ^ 64 := by norm_num⟩
      sender := sender
      receiver := receiver }
  else
    .error (.invalidLength vec.length 28)

/-- A block header hash (`BlockHeaderHash` in snarkvm: a `[u8; 32]`). -/
abbrev BlockHeaderHash := Octets 32

/-- The network message payload enum.  Its declaration lives in the message
module root; the variants and their field types are reconstructed from the
exhaustive matches in `network/src/external/message/serialization.rs`. -/
inductive Payload
  | Block (data : List Byte)
  | GetBlocks (hashes : List BlockHeaderHash)
  | GetMemoryPool
  | GetPeers
  | GetSync (hashes : List BlockHeaderHash)
  | MemoryPool (txs : List (List Byte))
  | Peers (addrs : List SocketAddr)
  | Ping (block_height : Fin (2 ^ 32))
  | Pong
  | Sync (hashes : List BlockHeaderHash)
  | SyncBlock (data : List Byte)
  | Transaction (data : List Byte)
deriving DecidableEq

/-- The capnp `socket_addr` struct of the payload schema: a union of V4 and
V6 addresses, each holding a byte list of octets (the schema imposes no
length) and a u16 port. -/
inductive CapnpAddr
  | v4 (octets : List Byte) (port : Fin 65536)
  | v6 (octets : List Byte) (port : Fin 65536)
deriving DecidableEq

/-- The capnp `payload` struct of the payload schema, i.e. the typed message
tree that `serialize_payload` builds and `deserialize_payload` reads. -/
inductive CapnpPayloadType
  | block (data : List Byte)
  | getBlocks (hashes : List (List Byte))
  | getMemoryPool
  | getPeers
  | getSync (hashes : List (List Byte))
  | memoryPool (txs : List (List Byte))
  | peers (addrs : List CapnpAddr)
  | ping (block_height : Fin (2 ^ 32))
  | pong
  | sync (hashes : List (List Byte))
  | syncBlock (data : List Byte)
  | transaction (data : List Byte)
deriving DecidableEq

/-- The capnp error type: `Failed` with a description, plus a marker for a
Rust panic (`copy_from_slice` on a hash of the wrong length). -/
inductive CapnpError
  | failed (description : String)
  | panicked
deriving DecidableEq

/-- The address branch of the builder loop in `serialize_payload`: a V4
address writes its 4 octets and port, a V6 address its 16 octets and port. -/
def serializeAddrCapnp : SocketAddr → CapnpAddr
  | .v4 ip port => .v4 ip.val port
  | .v6 ip port => .v6 ip.val port

/-- The builder match of `serialize_payload` in
`network/src/external/message/serialization.rs`: each payload variant is
written into the corresponding capnp union branch (hashes as their raw
32-byte contents, peers via `serializeAddrCapnp`). -/
def buildPayload : Payload → CapnpPayloadType
  | .Block bytes => .block bytes
  | .GetBlocks hashes => .getBlocks (hashes.map Subtype.val)
  | .GetMemoryPool => .getMemoryPool
  | .GetPeers => .getPeers
  | .GetSync hashes => .getSync (hashes.map Subtype.val)
  | .MemoryPool txs => .memoryPool txs
  | .Peers addrs => .peers (addrs.map serializeAddrCapnp)
  | .Ping block_height => .ping block_height
  | .Pong => .pong
  | .Sync hashes => .sync (hashes.map Subtype.val)
  | .SyncBlock bytes => .syncBlock bytes
  | .Transaction bytes => .transaction bytes

/-- Function `serialize_payload`: build the capnp message for the payload and
pack it with `capnp::serialize_packed::write_message`.  The packing is the
external capnp library, passed in as `write_message` (writing into a `Vec`
cannot fail, so it is total). -/
def serialize_payload {W : Type} (write_message : CapnpPayloadType → W) (p : Payload) : W :=
  write_message (buildPayload p)

/-- Helper `deserialize_block_hashes`: each hash must hold exactly 32 bytes,
which `copy_from_slice` enforces by panicking otherwise. -/
def deserialize_block_hashes : List (List Byte) → Except CapnpError (List BlockHeaderHash)
  | [] => .ok []
  | h :: t =>
    if hl : h.length = 32 then
      (deserialize_block_hashes t).map (fun rest => (⟨h, hl⟩ : BlockHeaderHash) :: rest)
    else
      .error .panicked

/-- One iteration of the loop in `deserialize_addresses`: reject an octet
list longer than the address family allows, and zero-fill missing octets
(the Rust code overwrites a zero-initialized array). -/
def deserialize_address : CapnpAddr → Except CapnpError SocketAddr
  | .v4 octets port =>
    if h : octets.length ≤ 4 then
      .ok (.v4 ⟨octets ++ List.replicate (4 - octets.length) 0, by simp; omega⟩ port)
    else
      .error (.failed "invalid IPv4 address: too many octets")
  | .v6 octets port =>
    if h : octets.length ≤ 16 then
      .ok (.v6 ⟨octets ++ List.replicate (16 - octets.length) 0, by simp; omega⟩ port)
    else
      .error (.failed "invalid IPv6 address: too many octets")

/-- Helper `deserialize_addresses`: decode each address in order, propagating
the first failure. -/
def deserialize_addresses : List CapnpAddr → Except CapnpError (List SocketAddr)
  | [] => .ok []
  | a :: t =>
    (deserialize_address a).bind fun addr =>
      (deserialize_addresses t).map (fun rest => addr :: rest)

/-- Helper `deserialize_transactions`: collect the raw byte blobs into a
`MemoryPool` payload. -/
def deserialize_transactions (txs : List (List Byte)) : Except CapnpError Payload :=
  .ok (.MemoryPool txs)

/-- The reader match of `deserialize_payload`: interpret a decoded capnp
message tree as a `Payload`. -/
def interpretPayload : CapnpPayloadType → Except CapnpError Payload
  | .block data => .ok (.Block data)
  | .getBlocks hashes => (deserialize_block_hashes hashes).map Payload.GetBlocks
  | .getMemoryPool => .ok .GetMemoryPool
  | .getPeers => .ok .GetPeers
  | .getSync hashes => (deserialize_block_hashes hashes).map Payload.GetSync
  | .memoryPool txs => deserialize_transactions txs
  | .peers addrs => (deserialize_addresses addrs).map Payload.Peers
  | .ping block_height => .ok (.Ping block_height)
  | .pong => .ok .Pong
  | .sync hashes => (deserialize_block_hashes hashes).map Payload.Sync
  | .syncBlock data => .ok (.SyncBlock data)
  | .transaction data => .ok (.Transaction data)

/-- Function `deserialize_payload`: unpack the bytes with
`capnp::serialize_packed::read_message` (the external capnp library, passed
in as `read_message`, which may fail) and interpret the resulting message. -/
def deserialize_payload {W : Type} (read_message : W → Except CapnpError CapnpPayloadType)
    (w : W) : Except CapnpError Payload :=
  (read_message w).bind interpretPayload

/-- The direction tag of an internal message envelope; the propagation code
only constructs `Outbound` values. -/
inductive Direction
  | outbound (remote : SocketAddr)
deriving DecidableEq

/-- The internal message envelope (`Message::new(direction, payload)`). -/
structure Message where
  direction : Direction
  payload : Payload
deriving DecidableEq

/-- The remote address a message envelope is directed at. -/
def Message.remote (m : Message) : SocketAddr :=
  match m.direction with
  | .outbound r => r

/-- The `Block` message type: a wrapper around serialized block bytes. -/
structure BlockMessage where
  data : List Byte
deriving DecidableEq

/-- The `Transaction` message type: a wrapper around serialized transaction
bytes. -/
structure TransactionMessage where
  bytes : List Byte
deriving DecidableEq

/-- The outbound requests constructed by `network/src/blocks.rs`. -/
inductive Request
  | block (remote : SocketAddr) (message : BlockMessage)
  | transaction (remote : SocketAddr) (message : TransactionMessage)
deriving DecidableEq

/-- The remote address an outbound request is directed at. -/
def Request.remote : Request → SocketAddr
  | .block r _ => r
  | .transaction r _ => r

/-- Method `Blocks::propagate_block` from `network/src/blocks.rs`: for every
connected peer whose address differs from the block miner and from the local
address, broadcast a `Block` request.  The `HashMap` of connected peers is
embedded as an association list; the emitted requests are returned as the
observable effect of the loop. -/
def Blocks.propagate_block (local_address : SocketAddr) (block_bytes : List Byte)
    (block_miner : SocketAddr) (connected_peers : List (SocketAddr × PeerInfo)) :
    List Request :=
  connected_peers.flatMap fun p =>
    if p.1 ≠ block_miner ∧ p.1 ≠ local_address then
      [.block p.1 ⟨block_bytes⟩]
    else
      []

/-- Method `Blocks::propagate_transaction` from `network/src/blocks.rs`. -/
def Blocks.propagate_transaction (local_address : SocketAddr) (transaction_bytes : List Byte)
    (transaction_sender : SocketAddr) (connected_peers : List (SocketAddr × PeerInfo)) :
    List Request :=
  connected_peers.flatMap fun p =>
    if p.1 ≠ transaction_sender ∧ p.1 ≠ local_address then
      [.transaction p.1 ⟨transaction_bytes⟩]
    else
      []

/-- Method `Consensus::propagate_transaction` from
`network/src/consensus/transactions.rs`: the same loop as the `Blocks`
version, but emitting `Payload::Transaction` message envelopes. -/
def Consensus.propagate_transaction (local_address : SocketAddr)
    (transaction_bytes : List Byte) (transaction_sender : SocketAddr)
    (connected_peers : List (SocketAddr × PeerInfo)) : List Message :=
  connected_peers.flatMap fun p =>
    if p.1 ≠ transaction_sender ∧ p.1 ≠ local_address then
      [⟨.outbound p.1, .Transaction transaction_bytes⟩]
    else
      []

/-- The transaction type (`Tx` from snarkvm, an external collaborator): the
embedded code inspects its signed `value_balance` (an i64, modelled as `Int`)
and its `network` id (a `Network` enum, modelled by its `id()` value). -/
structure Tx where
  value_balance : Int
  network : Nat
deriving DecidableEq

/-- A memory pool entry (`Entry<Tx>` from `snarkos_consensus`). -/
structure Entry where
  size_in_bytes : Nat
  transaction : Tx
deriving DecidableEq

/-- The observable outcome of `Consensus::received_transaction`: the returned
`Result`, whether the memory-pool insert was reached, and the messages sent
by the propagation step. -/
structure ReceivedTransactionResult where
  result : Except NetworkError Unit
  insert_called : Bool
  sent : List Message
deriving DecidableEq

/-- Method `Consensus::received_transaction` from
`network/src/consensus/transactions.rs`.  The external collaborators are
passed in: `txRead` is the outcome of `Tx::read` on the bytes (`None` when
parsing fails, in which case the function silently returns `Ok`),
`verify_transaction` is the consensus proof check (a `Result<bool>` whose
error propagates through `?`), and `insert` is `MemoryPool::insert`,
returning the optional txid of a newly inserted entry. -/
def Consensus.received_transaction (txRead : Option Tx)
    (verify_transaction : Tx → Except NetworkError Bool)
    (insert : Entry → Except Unit (Option (List Byte)))
    (local_address source : SocketAddr) (transaction : List Byte)
    (connected_peers : List (SocketAddr × PeerInfo)) : ReceivedTransactionResult :=
  match txRead with
  | none => ⟨.ok (), false, []⟩
  | some tx =>
    match verify_transaction tx with
    | .error e => ⟨.error e, false, []⟩
    | .ok false => ⟨.ok (), false, []⟩
    | .ok true =>
      if tx.value_balance < 0 then
        ⟨.ok (), false, []⟩
      else
        match insert ⟨transaction.length, tx⟩ with
        | .error _ => ⟨.ok (), true, []⟩
        | .ok none => ⟨.ok (), true, []⟩
        | .ok (some _) =>
          ⟨.ok (), true,
            Consensus.propagate_transaction local_address transaction source connected_peers⟩

/-- The deserialized block (`Block` from snarkvm, an external collaborator).
The embedded code uses `header.get_hash()` (the digest of the serialized
header, computed by external crypto and carried here as a field) and, for the
spec-level admission model, the header's `previous_block_hash`. -/
structure BlockStruct where
  header_hash : BlockHeaderHash
  previous_block_hash : BlockHeaderHash
deriving DecidableEq

/-- The observable outcome of `Blocks::received_block`: the returned
`Result`, the block passed to `ConsensusParameters::receive_block` if that
call was made, and the requests sent by the propagation step. -/
structure ReceivedBlockResult where
  result : Except NetworkError Unit
  receive_block_called : Option BlockStruct
  sent : List Request
deriving DecidableEq

/-- Method `Blocks::received_block` from `network/src/blocks.rs`.  External
collaborators passed in: `deserialize` is the outcome of
`BlockStruct::deserialize` on the message bytes (its error propagates through
`?`), `block_hash_exists` is the storage query, and `receive_block_ok` tells
whether `ConsensusParameters::receive_block` returned `Ok` (the code only
inspects `.is_ok()`). -/
def Blocks.received_block (deserialize : Except NetworkError BlockStruct)
    (block_hash_exists : BlockHeaderHash → Bool)
    (receive_block_ok : BlockStruct → Bool)
    (local_address remote_address : SocketAddr) (data : List Byte)
    (connected_peers : Option (List (SocketAddr × PeerInfo))) : ReceivedBlockResult :=
  match deserialize with
  | .error e => ⟨.error e, none, []⟩
  | .ok block_struct =>
    if block_hash_exists block_struct.header_hash then
      ⟨.ok (), none, []⟩
    else
      let is_new_block := receive_block_ok block_struct
      match connected_peers with
      | some peers =>
        if is_new_block then
          ⟨.ok (), some block_struct,
            Blocks.propagate_block local_address data remote_address peers⟩
        else
          ⟨.ok (), some block_struct, []⟩
      | none => ⟨.ok (), some block_struct, []⟩

/-- A rejection reason of the chain admission contract (§4.1). -/
inductive BlockRejectionReason
  | duplicate
  | invalid
deriving DecidableEq

/-- The admission verdict of the chain engine contract:
`receive_block(block) → {Accepted, SideChain, Orphan, Rejected(reason)}`. -/
inductive BlockStatus
  | accepted
  | sideChain
  | orphan
  | rejected (reason : BlockRejectionReason)
deriving DecidableEq

/-- The ledger stores of §3: the canonical chain, the side-chain store and
the orphan store. -/
structure ChainState where
  canonical : List BlockStruct
  side_store : List BlockStruct
  orphan_store : List BlockStruct
deriving DecidableEq

/-- The hashes known in any store of the ledger. -/
def ChainState.knownHashes (st : ChainState) : List BlockHeaderHash :=
  (st.canonical ++ st.side_store ++ st.orphan_store).map BlockStruct.header_hash

/-- Modelled from the spec: the body of `ConsensusParameters::receive_block`
is not under `src/` (only its callers are), so step 1 of the §4.1 admission
algorithm is modelled from the specification text: "If `hash(block)` already
known in any store → `Rejected(Duplicate)`".  Steps 2–5 (validation,
placement, orphan replay and fork choice) concern other claims and are
abstracted as the `admitNonDuplicate` continuation. -/
def receive_block (admitNonDuplicate : ChainState → BlockStruct → BlockStatus × ChainState)
    (st : ChainState) (b : BlockStruct) : BlockStatus × ChainState :=
  if b.header_hash ∈ st.knownHashes then
    (.rejected .duplicate, st)
  else
    admitNonDuplicate st b

/-- The consensus error variant raised by the miner on a network-id
mismatch, carrying the miner's and the transaction's network ids. -/
inductive ConsensusError
  | conflictingNetworkId (expected got : Nat)
deriving DecidableEq

/-- Method `Miner::add_coinbase_transaction` from `consensus/src/miner.rs`:
scan the candidate transactions for one whose network id differs from the
miner's configured id and abort with `ConflictingNetworkId` if found;
otherwise call the external `create_coinbase_transaction` collaborator
(§6.2, total) and append the returned coinbase transaction to the list,
returning its records.  The `&mut Vec` of transactions is returned alongside
the `Result`. -/
def Miner.add_coinbase_transaction {R : Type} (network_id : Nat)
    (create_coinbase_transaction : List Tx → R × Tx)
    (transactions : List Tx) : Except ConsensusError R × List Tx :=
  match transactions.find? (fun t => t.network != network_id) with
  | some t => (.error (.conflictingNetworkId network_id t.network), transactions)
  | none =>
    let (records, tx) := create_coinbase_transaction transactions
    (.ok records, transactions ++ [tx])

/-- Modelled from the spec: the `PeerBook` implementation is not under
`src/` (only `peer_info.rs` and the `PeerManager` callers are).  Per §3 it
maps socket addresses to peer information including a `handshake_nonce`; the
nonce map is kept alongside the `PeerInfo` map. -/
structure PeerBook where
  local_address : SocketAddr
  peers : List (SocketAddr × PeerInfo)
  handshakes : List (SocketAddr × Fin (2 ^ 64))
deriving DecidableEq

/-- The stored handshake nonce for a peer, as returned by
`PeerBook::handshake`. -/
def PeerBook.handshake_nonce (pb : PeerBook) (addr : SocketAddr) : Option (Fin (2 ^ 64)) :=
  (pb.handshakes.find? (fun q => q.1 == addr)).map Prod.snd

/-- Modelled from the spec: `PeerBook::set_connecting(addr, nonce)` (§4.5
and the `PeerManager` call sites): transition the peer's `PeerInfo` to
`Connecting` and, on success, record the handshake nonce for the peer. -/
def PeerBook.set_connecting (pb : PeerBook) (addr : SocketAddr) (nonce : Fin (2 ^ 64))
    (now : Nat) : Except NetworkError Unit × PeerBook :=
  match ((((pb.peers.find? (fun q => q.1 == addr)).map Prod.snd).getD
      (PeerInfo.new addr)).set_connecting now) with
  | (.ok (), updated) =>
    (.ok (), { pb with
      peers := (addr, updated) :: pb.peers.filter (fun q => q.1 != addr)
      handshakes := (addr, nonce) :: pb.handshakes.filter (fun q => q.1 != addr) })
  | (.error e, _) => (.error e, pb)

/-- Modelled from the spec: `PeerBook::set_disconnected(addr)` (§4.5):
transition the peer's `PeerInfo` to `Disconnected` and, on success, clear
the stored handshake nonce for the peer. -/
def PeerBook.set_disconnected (pb : PeerBook) (addr : SocketAddr) (now : Nat) :
    Except NetworkError Unit × PeerBook :=
  match ((((pb.peers.find? (fun q => q.1 == addr)).map Prod.snd).getD
      (PeerInfo.new addr)).set_disconnected now) with
  | (.ok (), updated) =>
    (.ok (), { pb with
      peers := (addr, updated) :: pb.peers.filter (fun q => q.1 != addr)
      handshakes := pb.handshakes.filter (fun q => q.1 != addr) })
  | (.error e, _) => (.error e, pb)

/-- The observable outcome of `Blocks::received_transaction`: the returned
`Result`, whether the memory-pool insert was reached, and the requests sent
by the propagation step. -/
structure BlocksReceivedTransactionResult where
  result : Except NetworkError Unit
  insert_called : Bool
  sent : List Request
deriving DecidableEq

/-- Method `Blocks::received_transaction` from `network/src/blocks.rs`: the
same guard sequence as `Consensus::received_transaction`, with propagation
via `Blocks::propagate_transaction` requests. -/
def Blocks.received_transaction (txRead : Option Tx)
    (verify_transaction : Tx → Except NetworkError Bool)
    (insert : Entry → Except Unit (Option (List Byte)))
    (local_address source : SocketAddr) (transaction : List Byte)
    (connected_peers : List (SocketAddr × PeerInfo)) : BlocksReceivedTransactionResult :=
  match txRead with
  | none => ⟨.ok (), false, []⟩
  | some tx =>
    match verify_transaction tx with
    | .error e => ⟨.error e, false, []⟩
    | .ok false => ⟨.ok (), false, []⟩
    | .ok true =>
      if tx.value_balance < 0 then
        ⟨.ok (), false, []⟩
      else
        match insert ⟨transaction.length, tx⟩ with
        | .error _ => ⟨.ok (), true, []⟩
        | .ok none => ⟨.ok (), true, []⟩
        | .ok (some _) =>
          ⟨.ok (), true,
            Blocks.propagate_transaction local_address transaction source connected_peers⟩

/-- A concrete all-zero block header hash, used as a sample input. -/
def hash0 : BlockHeaderHash := ⟨List.replicate 32 0, rfl⟩

/-- A concrete all-one block header hash, used as a sample input. -/
def hash1 : BlockHeaderHash := ⟨List.replicate 32 1, rfl⟩

/-! ## Theorems: the claims of the specification, settled against the
embedding above. -/

/-- C3: for every `PeerInfo`, status transitions only follow the §4.5 state
machine: `set_connecting` succeeds exactly when the status is `NeverConnected`
or `Disconnected` and sets it to `Connecting`; `set_connected` succeeds
exactly when the status is `Connecting` and sets it to `Connected`;
`set_disconnected` succeeds exactly when the status is `Connecting` or
`Connected` and sets it to `Disconnected`; every other call returns a
`NetworkError` and leaves the peer info (in particular its status)
unchanged. -/
theorem peer_status_transitions (p : PeerInfo) (now : Nat) :
    ((p.set_connecting now).1 = .ok () ↔
      p.status = .NeverConnected ∨ p.status = .Disconnected) ∧
    ((p.status = .NeverConnected ∨ p.status = .Disconnected) →
      ((p.set_connecting now).2).status = .Connecting) ∧
    (¬(p.status = .NeverConnected ∨ p.status = .Disconnected) →
      (∃ e, (p.set_connecting now).1 = .error e) ∧ (p.set_connecting now).2 = p) ∧
    ((p.set_connected now).1 = .ok () ↔ p.status = .Connecting) ∧
    (p.status = .Connecting → ((p.set_connected now).2).status = .Connected) ∧
    (p.status ≠ .Connecting →
      (∃ e, (p.set_connected now).1 = .error e) ∧ (p.set_connected now).2 = p) ∧
    ((p.set_disconnected now).1 = .ok () ↔
      p.status = .Connecting ∨ p.status = .Connected) ∧
    ((p.status = .Connecting ∨ p.status = .Connected) →
      ((p.set_disconnected now).2).status = .Disconnected) ∧
    (¬(p.status = .Connecting ∨ p.status = .Connected) →
      (∃ e, (p.set_disconnected now).1 = .error e) ∧ (p.set_disconnected now).2 = p) := by
  obtain ⟨a, s, f, lc, ld, cc, dc, q⟩ := p
  cases s <;>
    simp [PeerInfo.set_connecting, PeerInfo.set_connected, PeerInfo.set_disconnected]

/-- C3 witness: the transition theorem evaluated on a freshly created peer. -/
theorem peer_status_transitions_witness :
    ((PeerInfo.new addr0).set_connecting 0).1 = .ok () :=
  ((peer_status_transitions (PeerInfo.new addr0) 0).1).mpr (Or.inl rfl)

/-- C7: `Environment::new` rejects invalid configuration at startup and only
then: it returns `Err(PeerCountInvalid)` exactly when the minimum or maximum
number of connected peers is 0; it returns `Err(SyncIntervalInvalid)` exactly
when (past the peer-count check) the sync interval is below 2 or above 300;
and otherwise it returns `Ok` with an `Environment` carrying the given
settings. -/
theorem environment_new_validation {S M P : Type} (storage : S) (memory_pool : M)
    (cp : ConsensusParameters) (dpc : P) (la : SocketAddr)
    (minPeers maxPeers : Fin 65536) (sync : Fin (2 ^ 64)) (mpi : Byte)
    (parse : String → Option SocketAddr) (bootnodes : List String)
    (isBootnode isMiner : Bool) :
    (Environment.new storage memory_pool cp dpc la minPeers maxPeers sync mpi
        parse bootnodes isBootnode isMiner = .error .peerCountInvalid ↔
      minPeers = 0 ∨ maxPeers = 0) ∧
    (Environment.new storage memory_pool cp dpc la minPeers maxPeers sync mpi
        parse bootnodes isBootnode isMiner = .error .syncIntervalInvalid ↔
      (minPeers ≠ 0 ∧ maxPeers ≠ 0 ∧ (sync.val < 2 ∨ sync.val > 300))) ∧
    (minPeers ≠ 0 → maxPeers ≠ 0 → 2 ≤ sync.val → sync.val ≤ 300 →
      Environment.new storage memory_pool cp dpc la minPeers maxPeers sync mpi
          parse bootnodes isBootnode isMiner = .ok {
        storage := storage
        memory_pool := memory_pool
        consensus_parameters := cp
        dpc_parameters := dpc
        network_id := cp.network_id
        sync_manager := none
        local_address := la
        minimum_number_of_connected_peers := minPeers
        maximum_number_of_connected_peers := maxPeers
        sync_interval := sync
        memory_pool_interval := mpi
        bootnodes := bootnodes.filterMap parse
        is_bootnode := isBootnode
        is_miner := isMiner }) := by
  unfold Environment.new
  split_ifs with h₁ h₂
  · exact ⟨iff_of_true rfl h₁,
      iff_of_false (fun h => NetworkError.noConfusion (Except.error.inj h))
        (fun h => h₁.elim h.1 h.2.1),
      fun a b _ _ => absurd h₁ (by simp [a, b])⟩
  · exact ⟨iff_of_false (fun h => NetworkError.noConfusion (Except.error.inj h)) h₁,
      iff_of_true rfl ⟨fun h => h₁ (Or.inl h), fun h => h₁ (Or.inr h), h₂⟩,
      fun _ _ c d => absurd h₂ (by omega)⟩
  · exact ⟨iff_of_false (fun h => nomatch h) h₁,
      iff_of_false (fun h => nomatch h) (fun h => h₂ h.2.2),
      fun _ _ _ _ => rfl⟩

/-- C7 witness: a valid configuration is accepted and an all-zero peer band
is rejected, by direct application of the validation theorem. -/
theorem environment_new_validation_witness :
    Environment.new () () ⟨0⟩ () addr0 5 10 30 0 (fun _ => none) [] false false = .ok {
        storage := ()
        memory_pool := ()
        consensus_parameters := ⟨0⟩
        dpc_parameters := ()
        network_id := 0
        sync_manager := none
        local_address := addr0
        minimum_number_of_connected_peers := 5
        maximum_number_of_connected_peers := 10
        sync_interval := 30
        memory_pool_interval := 0
        bootnodes := []
        is_bootnode := false
        is_miner := false } ∧
    Environment.new () () ⟨0⟩ () addr0 0 10 30 0 (fun _ => none) [] false false =
      .error .peerCountInvalid :=
  ⟨(environment_new_validation () () ⟨0⟩ () addr0 5 10 30 0 (fun _ => none) [] false
      false).2.2 (by decide) (by decide) (by decide) (by decide),
   (environment_new_validation () () ⟨0⟩ () addr0 0 10 30 0 (fun _ => none) [] false
      false).1.mpr (Or.inl rfl)⟩

/-- C6: `Handshake::accept` returns an `InvalidNonce` error and sets the
state to `Rejected` exactly when the message nonce differs from the stored
nonce; on a matching nonce it returns `Ok`, moving a `Waiting` state to
`Accepted` and leaving every other state unchanged. -/
theorem handshake_accept_nonce (h : Handshake) (m : Verack) :
    ((∃ e, (h.accept m).1 = .error e) ↔ h.nonce ≠ m.nonce) ∧
    (h.nonce ≠ m.nonce →
      (h.accept m).1 = .error (.invalidNonce h.nonce m.nonce) ∧
      ((h.accept m).2).state = .Rejected) ∧
    (h.nonce = m.nonce → h.state = .Waiting →
      (h.accept m).1 = .ok () ∧ ((h.accept m).2).state = .Accepted) ∧
    (h.nonce = m.nonce → h.state ≠ .Waiting →
      (h.accept m).1 = .ok () ∧ (h.accept m).2 = h) := by
  by_cases hn : h.nonce = m.nonce
  · by_cases hs : h.state = .Waiting <;> simp [Handshake.accept, hn, hs]
  · simp [Handshake.accept, hn]

/-- C6 witness: accepting a matching-nonce verack from the waiting state. -/
theorem handshake_accept_nonce_witness :
    (Handshake.accept ⟨.Waiting, 0, 7⟩ ⟨7, addr0, addr1⟩).1 = .ok () ∧
    ((Handshake.accept ⟨.Waiting, 0, 7⟩ ⟨7, addr0, addr1⟩).2).state = .Accepted :=
  (handshake_accept_nonce ⟨.Waiting, 0, 7⟩ ⟨7, addr0, addr1⟩).2.2.1 rfl rfl

theorem leBytes_length (k n : Nat) : (leBytes k n).length = k := by
  induction k generalizing n with
  | zero => rfl
  | succ k ih => simp [leBytes, ih]

theorem leVal_lt (l : List Byte) : leVal l < 256 ^ l.length := by
  induction l with
  | nil => simp [leVal]
  | cons b t ih =>
    have hb := b.isLt
    simp only [leVal, List.length_cons, pow_succ]
    omega

theorem leVal_leBytes (k n : Nat) (h : n < 256 ^ k) : leVal (leBytes k n) = n := by
  induction k generalizing n with
  | zero =>
    simp only [pow_zero, Nat.lt_one_iff] at h
    simp [leBytes, leVal, h]
  | succ k ih =>
    have hd : n / 256 < 256 ^ k := by
      rw [Nat.div_lt_iff_lt_mul (by norm_num)]
      calc n < 256 ^ (k + 1) := h
        _ = 256 ^ k * 256 := by ring
    simp only [leBytes, leVal, ih _ hd]
    omega

theorem bincodeSocketAddr_length (a : SocketAddr) :
    (bincodeSocketAddr a).length = if a.isV4 then 10 else 22 := by
  cases a with
  | v4 ip port => simp [bincodeSocketAddr, SocketAddr.isV4, leBytes_length, ip.2]
  | v6 ip port => simp [bincodeSocketAddr, SocketAddr.isV4, leBytes_length, ip.2]

theorem bincodeSocketAddr_v4_roundtrip (ip : Octets 4) (port : Fin 65536) :
    bincodeSocketAddrDe (bincodeSocketAddr (.v4 ip port)) = .ok (.v4 ip port) := by
  obtain ⟨l, hl⟩ := ip
  rcases l with _ | ⟨a, _ | ⟨b, _ | ⟨c, _ | ⟨d, _ | ⟨e, t⟩⟩⟩⟩⟩ <;> simp only [List.length] at hl <;>
    try omega
  have hp := port.isLt
  simp [bincodeSocketAddr, bincodeSocketAddrDe, leBytes, leVal, Fin.ext_iff]
  omega

/-- C10: `Verack::deserialize` returns an `InvalidLength` error for every
byte vector whose length is not exactly 28; consequently
`deserialize (serialize v) = v` for every `Verack` whose sender and receiver
are IPv4 socket addresses (whose bincode encoding is 28 bytes total), and it
fails for `Verack`s containing IPv6 addresses, whose serialization is longer
than 28 bytes. -/
theorem verack_serialization_roundtrip :
    (∀ vec : List Byte, vec.length ≠ 28 →
      Verack.deserialize vec = .error (.invalidLength vec.length 28)) ∧
    (∀ v : Verack, v.sender.isV4 = true → v.receiver.isV4 = true →
      Verack.deserialize (Verack.serialize v) = .ok v) ∧
    (∀ v : Verack, (v.sender.isV4 = false ∨ v.receiver.isV4 = false) →
      28 < (Verack.serialize v).length ∧
      Verack.deserialize (Verack.serialize v) =
        .error (.invalidLength (Verack.serialize v).length 28)) := by
  have hlen_ne : ∀ vec : List Byte, vec.length ≠ 28 →
      Verack.deserialize vec = .error (.invalidLength vec.length 28) := by
    intro vec h
    rw [Verack.deserialize, if_neg h]
  refine ⟨hlen_ne, ?_, ?_⟩
  · rintro ⟨n, s, r⟩ hs hr
    cases s with
    | v6 ip port => simp [SocketAddr.isV4] at hs
    | v4 ips ps =>
      cases r with
      | v6 ip port => simp [SocketAddr.isV4] at hr
      | v4 ipr pr =>
        have hx : (leBytes 8 n.val).length = 8 := leBytes_length 8 n.val
        have hy : (bincodeSocketAddr (.v4 ipr pr)).length = 10 := by
          simp [bincodeSocketAddr_length, SocketAddr.isV4]
        have hz : (bincodeSocketAddr (.v4 ips ps)).length = 10 := by
          simp [bincodeSocketAddr_length, SocketAddr.isV4]
        have hser : Verack.serialize ⟨n, .v4 ips ps, .v4 ipr pr⟩ =
            leBytes 8 n.val ++ bincodeSocketAddr (.v4 ipr pr) ++
              bincodeSocketAddr (.v4 ips ps) := rfl
        have hlen : (Verack.serialize ⟨n, .v4 ips ps, .v4 ipr pr⟩).length = 28 := by
          rw [hser]
          simp [hx, hy, hz]
        have e1 : ((Verack.serialize ⟨n, .v4 ips ps, .v4 ipr pr⟩).drop 8).take 10 =
            bincodeSocketAddr (.v4 ipr pr) := by
          rw [hser, List.append_assoc, List.drop_left' hx, List.take_left' hy]
        have e2 : ((Verack.serialize ⟨n, .v4 ips ps, .v4 ipr pr⟩).drop 18).take 10 =
            bincodeSocketAddr (.v4 ips ps) := by
          rw [hser, List.drop_left' (by simp [hx, hy]), ← hz, List.take_length]
        have e3 : (Verack.serialize ⟨n, .v4 ips ps, .v4 ipr pr⟩).take 8 =
            leBytes 8 n.val := by
          rw [hser, List.append_assoc, List.take_left' hx]
        rw [Verack.deserialize, if_pos hlen]
        simp only [e1, e2, bincodeSocketAddr_v4_roundtrip, bind, Except.bind]
        simp [e3, Fin.ext_iff,
          leVal_leBytes 8 n.val (by have := n.isLt; norm_num at this ⊢; omega)]
  · rintro ⟨n, s, r⟩ hv
    have hgt : 28 < (Verack.serialize ⟨n, s, r⟩).length := by
      have hx : (leBytes 8 n.val).length = 8 := leBytes_length 8 n.val
      have hr := bincodeSocketAddr_length r
      have hs := bincodeSocketAddr_length s
      simp only [Verack.serialize, List.length_append, hx]
      rcases hv with h | h <;> simp [h] at hr hs <;>
        cases hcs : s.isV4 <;> cases hcr : r.isV4 <;> simp_all
    exact ⟨hgt, hlen_ne _ (by omega)⟩

/-- C10 witness: a concrete IPv4 verack round-trips, and a concrete IPv6
verack serializes to more than 28 bytes and is rejected. -/
theorem verack_serialization_roundtrip_witness :
    Verack.deserialize (Verack.serialize ⟨5, addr1, addr2⟩) = .ok ⟨5, addr1, addr2⟩ ∧
    28 < (Verack.serialize ⟨5, .v6 ⟨List.replicate 16 0, rfl⟩ 9, addr2⟩).length :=
  ⟨verack_serialization_roundtrip.2.1 ⟨5, addr1, addr2⟩ (by decide) (by decide),
   (verack_serialization_roundtrip.2.2 ⟨5, .v6 ⟨List.replicate 16 0, rfl⟩ 9, addr2⟩
     (Or.inl (by decide))).1⟩

theorem deserialize_block_hashes_of_map (hashes : List BlockHeaderHash) :
    deserialize_block_hashes hashes.unattach = .ok hashes := by
  induction hashes with
  | nil => rfl
  | cons h t ih =>
    obtain ⟨l, hl⟩ := h
    simp [deserialize_block_hashes, List.unattach_cons, hl, ih, Except.map]

theorem deserialize_address_of_serialize (a : SocketAddr) :
    deserialize_address (serializeAddrCapnp a) = .ok a := by
  cases a with
  | v4 ip port =>
    obtain ⟨l, hl⟩ := ip
    simp [serializeAddrCapnp, deserialize_address, hl]
  | v6 ip port =>
    obtain ⟨l, hl⟩ := ip
    simp [serializeAddrCapnp, deserialize_address, hl]

theorem deserialize_addresses_of_map (addrs : List SocketAddr) :
    deserialize_addresses (addrs.map serializeAddrCapnp) = .ok addrs := by
  induction addrs with
  | nil => rfl
  | cons a t ih =>
    simp [deserialize_addresses, deserialize_address_of_serialize, ih, Except.bind,
      Except.map]

/-- C1: for every payload value of the shapes `Ping`, `Pong`, `Peers`,
`Block`, `Transaction`, `SyncBlock`, `MemoryPool`, `GetBlocks`, `GetSync`,
`Sync`, `GetPeers` and `GetMemoryPool` (i.e. every inhabitant of the
embedded `Payload` type), `deserialize_payload` applied to
`serialize_payload p` succeeds and returns a payload equal to `p`, for any
capnp packing layer satisfying the library's read/write contract. -/
theorem payload_serialization_roundtrip {W : Type}
    (write_message : CapnpPayloadType → W)
    (read_message : W → Except CapnpError CapnpPayloadType)
    (hrw : ∀ m, read_message (write_message m) = .ok m) (p : Payload) :
    deserialize_payload read_message (serialize_payload write_message p) = .ok p := by
  rw [serialize_payload, deserialize_payload, hrw]
  cases p <;>
    simp [interpretPayload, buildPayload, deserialize_transactions,
      deserialize_block_hashes_of_map, deserialize_addresses_of_map, Except.bind,
      Except.map]

/-- C1 witness: the round trip applied to a concrete `Peers` payload holding
an IPv4 and an IPv6 address, with the identity packing layer. -/
theorem payload_serialization_roundtrip_witness :
    deserialize_payload (fun m => .ok m)
      (serialize_payload id (Payload.Peers [addr1, .v6 ⟨List.replicate 16 3, rfl⟩ 9])) =
      .ok (Payload.Peers [addr1, .v6 ⟨List.replicate 16 3, rfl⟩ 9]) :=
  payload_serialization_roundtrip id (fun m => .ok m) (fun _ => rfl)
    (Payload.Peers [addr1, .v6 ⟨List.replicate 16 3, rfl⟩ 9])

theorem broadcast_map_remote {α : Type} (mk : SocketAddr → α) (g : α → SocketAddr)
    (hg : ∀ a, g (mk a) = a) (x y : SocketAddr)
    (peers : List (SocketAddr × PeerInfo)) :
    (peers.flatMap fun p => if p.1 ≠ x ∧ p.1 ≠ y then [mk p.1] else []).map g =
      (peers.map Prod.fst).filter (fun k => decide (k ≠ x ∧ k ≠ y)) := by
  induction peers with
  | nil => rfl
  | cons p t ih =>
    by_cases hc : p.1 ≠ x ∧ p.1 ≠ y <;>
      simp [List.flatMap_cons, List.filter_cons, hc, hg, ih]

theorem broadcast_mem {α : Type} (mk : SocketAddr → α) (x y : SocketAddr)
    (peers : List (SocketAddr × PeerInfo)) (r : α) :
    (r ∈ peers.flatMap fun p => if p.1 ≠ x ∧ p.1 ≠ y then [mk p.1] else []) ↔
      ∃ p ∈ peers, r = mk p.1 ∧ p.1 ≠ x ∧ p.1 ≠ y := by
  simp only [List.mem_flatMap]
  constructor
  · rintro ⟨p, hp, hr⟩
    by_cases hc : p.1 ≠ x ∧ p.1 ≠ y
    · rw [if_pos hc] at hr
      simp only [List.mem_singleton] at hr
      exact ⟨p, hp, hr, hc⟩
    · rw [if_neg hc] at hr
      simp at hr
  · rintro ⟨p, hp, hr, hc⟩
    refine ⟨p, hp, ?_⟩
    rw [if_pos hc]
    simp [hr]

theorem count_filter_nodup (l : List SocketAddr) (hnodup : l.Nodup)
    (pred : SocketAddr → Bool) (a : SocketAddr) :
    (l.filter pred).count a = if a ∈ l ∧ pred a then 1 else 0 := by
  by_cases hp : pred a
  · rw [List.count_filter hp]
    by_cases hm : a ∈ l
    · rw [List.count_eq_one_of_mem hnodup hm, if_pos ⟨hm, hp⟩]
    · rw [List.count_eq_zero_of_not_mem hm, if_neg (fun h => hm h.1)]
  · rw [List.count_eq_zero_of_not_mem (fun h => hp (List.mem_filter.mp h).2),
      if_neg (fun h => hp h.2)]

/-- C2: each of `Blocks::propagate_block`, `Blocks::propagate_transaction`
and `Consensus::propagate_transaction` sends its message to exactly those
connected peers whose address differs from both the source address and the
local address, exactly once per such peer (assuming the distinct keys of the
`HashMap` of connected peers), and sends nothing to the source or the local
address; every emitted message is the `Block` (resp. `Transaction`) message
carrying the given bytes. -/
theorem propagation_excludes_source_and_local (local_address source : SocketAddr)
    (bytes : List Byte) (peers : List (SocketAddr × PeerInfo))
    (hnodup : (peers.map Prod.fst).Nodup) :
    (∀ a : SocketAddr,
      ((Blocks.propagate_block local_address bytes source peers).map Request.remote).count a =
        if a ∈ peers.map Prod.fst ∧ a ≠ source ∧ a ≠ local_address then 1 else 0) ∧
    (∀ r ∈ Blocks.propagate_block local_address bytes source peers,
      ∃ p ∈ peers, r = .block p.1 ⟨bytes⟩ ∧ p.1 ≠ source ∧ p.1 ≠ local_address) ∧
    (∀ a : SocketAddr,
      ((Blocks.propagate_transaction local_address bytes source peers).map
          Request.remote).count a =
        if a ∈ peers.map Prod.fst ∧ a ≠ source ∧ a ≠ local_address then 1 else 0) ∧
    (∀ r ∈ Blocks.propagate_transaction local_address bytes source peers,
      ∃ p ∈ peers, r = .transaction p.1 ⟨bytes⟩ ∧ p.1 ≠ source ∧ p.1 ≠ local_address) ∧
    (∀ a : SocketAddr,
      ((Consensus.propagate_transaction local_address bytes source peers).map
          Message.remote).count a =
        if a ∈ peers.map Prod.fst ∧ a ≠ source ∧ a ≠ local_address then 1 else 0) ∧
    (∀ m ∈ Consensus.propagate_transaction local_address bytes source peers,
      ∃ p ∈ peers, m = ⟨.outbound p.1, .Transaction bytes⟩ ∧
        p.1 ≠ source ∧ p.1 ≠ local_address) := by
  refine ⟨?_, ?_, ?_, ?_, ?_, ?_⟩
  · intro a
    rw [Blocks.propagate_block,
      broadcast_map_remote (fun k => Request.block k ⟨bytes⟩) Request.remote
        (fun _ => rfl) source local_address peers,
      count_filter_nodup _ hnodup]
    simp only [decide_eq_true_eq]
  · intro r hr
    exact (broadcast_mem (fun k => Request.block k ⟨bytes⟩) source local_address
      peers r).mp hr
  · intro a
    rw [Blocks.propagate_transaction,
      broadcast_map_remote (fun k => Request.transaction k ⟨bytes⟩) Request.remote
        (fun _ => rfl) source local_address peers,
      count_filter_nodup _ hnodup]
    simp only [decide_eq_true_eq]
  · intro r hr
    exact (broadcast_mem (fun k => Request.transaction k ⟨bytes⟩) source local_address
      peers r).mp hr
  · intro a
    rw [Consensus.propagate_transaction,
      broadcast_map_remote (fun k => Message.mk (.outbound k) (.Transaction bytes))
        Message.remote (fun _ => rfl) source local_address peers,
      count_filter_nodup _ hnodup]
    simp only [decide_eq_true_eq]
  · intro m hm
    exact (broadcast_mem (fun k => Message.mk (.outbound k) (.Transaction bytes))
      source local_address peers m).mp hm

/-- C2 witness: with two connected peers, of which one is the source, the
block is sent exactly once, to the other peer. -/
theorem propagation_excludes_source_and_local_witness :
    ((Blocks.propagate_block addr0 [] addr1
        [(addr1, PeerInfo.new addr1), (addr2, PeerInfo.new addr2)]).map
      Request.remote).count addr2 = 1 := by
  have h := (propagation_excludes_source_and_local addr0 addr1 []
    [(addr1, PeerInfo.new addr1), (addr2, PeerInfo.new addr2)] (by decide)).1 addr2
  rw [h]
  decide

/-- C4: in `Consensus::received_transaction` and in
`Blocks::received_transaction`, if `verify_transaction` returns `false`, or
it returns a boolean and the transaction's `value_balance` is negative, the
function returns `Ok` without reaching the memory-pool insert and without
propagating; the insert is reached only for transactions that passed both
checks; and the transaction is propagated (to the peers other than the
source and the local node) only when the insert returns a txid. -/
theorem received_transaction_guards (txRead : Option Tx)
    (verify_transaction : Tx → Except NetworkError Bool)
    (insert : Entry → Except Unit (Option (List Byte)))
    (local_address source : SocketAddr) (bytes : List Byte)
    (peers : List (SocketAddr × PeerInfo)) (r : ReceivedTransactionResult)
    (r2 : BlocksReceivedTransactionResult)
    (hr : r = Consensus.received_transaction txRead verify_transaction insert
      local_address source bytes peers)
    (hr2 : r2 = Blocks.received_transaction txRead verify_transaction insert
      local_address source bytes peers) :
    ((∀ tx, txRead = some tx →
      (verify_transaction tx = .ok false ∨
        ((∃ b, verify_transaction tx = .ok b) ∧ tx.value_balance < 0)) →
      r.result = .ok () ∧ r.insert_called = false ∧ r.sent = []) ∧
    (r.insert_called = true →
      ∃ tx, txRead = some tx ∧ verify_transaction tx = .ok true ∧
        0 ≤ tx.value_balance) ∧
    (r.sent ≠ [] →
      ∃ tx txid, txRead = some tx ∧ insert ⟨bytes.length, tx⟩ = .ok (some txid) ∧
        r.sent = Consensus.propagate_transaction local_address bytes source peers)) ∧
    ((∀ tx, txRead = some tx →
      (verify_transaction tx = .ok false ∨
        ((∃ b, verify_transaction tx = .ok b) ∧ tx.value_balance < 0)) →
      r2.result = .ok () ∧ r2.insert_called = false ∧ r2.sent = []) ∧
    (r2.insert_called = true →
      ∃ tx, txRead = some tx ∧ verify_transaction tx = .ok true ∧
        0 ≤ tx.value_balance) ∧
    (r2.sent ≠ [] →
      ∃ tx txid, txRead = some tx ∧ insert ⟨bytes.length, tx⟩ = .ok (some txid) ∧
        r2.sent = Blocks.propagate_transaction local_address bytes source peers)) := by
  subst hr hr2
  constructor
  · unfold Consensus.received_transaction
    cases txRead with
    | none => simp
    | some tx =>
      cases hv : verify_transaction tx with
      | error e => simp [hv]
      | ok b =>
        cases b with
        | false => simp [hv]
        | true =>
          simp only [hv]
          by_cases hneg : tx.value_balance < 0
          · simp only [if_pos hneg]
            exact ⟨fun tx' htx' _ => by simp, by simp, by simp⟩
          · simp only [if_neg hneg]
            cases hins : insert ⟨bytes.length, tx⟩ with
            | error e =>
              refine ⟨?_, fun _ => ⟨tx, rfl, hv, by omega⟩, by simp⟩
              rintro tx' htx' (hf | ⟨⟨b', hb'⟩, hneg'⟩) <;>
                rw [Option.some_inj] at htx' <;> subst htx'
              · rw [hv] at hf
                simp at hf
              · exact absurd hneg' hneg
            | ok o =>
              cases o with
              | none =>
                refine ⟨?_, fun _ => ⟨tx, rfl, hv, by omega⟩, by simp⟩
                rintro tx' htx' (hf | ⟨⟨b', hb'⟩, hneg'⟩) <;>
                  rw [Option.some_inj] at htx' <;> subst htx'
                · rw [hv] at hf
                  simp at hf
                · exact absurd hneg' hneg
              | some txid =>
                refine ⟨?_, fun _ => ⟨tx, rfl, hv, by omega⟩,
                  fun _ => ⟨tx, txid, rfl, hins, rfl⟩⟩
                rintro tx' htx' (hf | ⟨⟨b', hb'⟩, hneg'⟩) <;>
                  rw [Option.some_inj] at htx' <;> subst htx'
                · rw [hv] at hf
                  simp at hf
                · exact absurd hneg' hneg
  · unfold Blocks.received_transaction
    cases txRead with
    | none => simp
    | some tx =>
      cases hv : verify_transaction tx with
      | error e => simp [hv]
      | ok b =>
        cases b with
        | false => simp [hv]
        | true =>
          simp only [hv]
          by_cases hneg : tx.value_balance < 0
          · simp only [if_pos hneg]
            exact ⟨fun tx' htx' _ => by simp, by simp, by simp⟩
          · simp only [if_neg hneg]
            cases hins : insert ⟨bytes.length, tx⟩ with
            | error e =>
              refine ⟨?_, fun _ => ⟨tx, rfl, hv, by omega⟩, by simp⟩
              rintro tx' htx' (hf | ⟨⟨b', hb'⟩, hneg'⟩) <;>
                rw [Option.some_inj] at htx' <;> subst htx'
              · rw [hv] at hf
                simp at hf
              · exact absurd hneg' hneg
            | ok o =>
              cases o with
              | none =>
                refine ⟨?_, fun _ => ⟨tx, rfl, hv, by omega⟩, by simp⟩
                rintro tx' htx' (hf | ⟨⟨b', hb'⟩, hneg'⟩) <;>
                  rw [Option.some_inj] at htx' <;> subst htx'
                · rw [hv] at hf
                  simp at hf
                · exact absurd hneg' hneg
              | some txid =>
                refine ⟨?_, fun _ => ⟨tx, rfl, hv, by omega⟩,
                  fun _ => ⟨tx, txid, rfl, hins, rfl⟩⟩
                rintro tx' htx' (hf | ⟨⟨b', hb'⟩, hneg'⟩) <;>
                  rw [Option.some_inj] at htx' <;> subst htx'
                · rw [hv] at hf
                  simp at hf
                · exact absurd hneg' hneg

/-- C4 witness: a coinbase-shaped transaction (negative value balance) is
dropped with an `Ok` result, no insert and no propagation. -/
theorem received_transaction_guards_witness :
    (Consensus.received_transaction (some ⟨-1, 0⟩) (fun _ => .ok true)
        (fun _ => .ok none) addr0 addr1 [] []).result = .ok () ∧
    (Consensus.received_transaction (some ⟨-1, 0⟩) (fun _ => .ok true)
        (fun _ => .ok none) addr0 addr1 [] []).insert_called = false ∧
    (Consensus.received_transaction (some ⟨-1, 0⟩) (fun _ => .ok true)
        (fun _ => .ok none) addr0 addr1 [] []).sent = [] :=
  (received_transaction_guards (some ⟨-1, 0⟩) (fun _ => .ok true) (fun _ => .ok none)
      addr0 addr1 [] [] _ _ rfl rfl).1.1 ⟨-1, 0⟩ rfl (Or.inr ⟨⟨true, rfl⟩, by norm_num⟩)

/-- C5: a block whose hash is already known is rejected as a duplicate: in
`Blocks::received_block`, when `block_hash_exists` returns `true` for the
parsed block's header hash, `receive_block` is not invoked, nothing is
propagated and the result is `Ok` (so no store is mutated); and at the
admission contract of §4.1, `receive_block` on a block whose hash is known
in any store reports `Rejected(Duplicate)` and leaves the state unchanged. -/
theorem received_block_duplicate (block_hash_exists : BlockHeaderHash → Bool)
    (receive_block_ok : BlockStruct → Bool) (local_address remote_address : SocketAddr)
    (data : List Byte) (connected_peers : Option (List (SocketAddr × PeerInfo)))
    (bs : BlockStruct) (hdup : block_hash_exists bs.header_hash = true) :
    Blocks.received_block (.ok bs) block_hash_exists receive_block_ok local_address
        remote_address data connected_peers = ⟨.ok (), none, []⟩ ∧
    ∀ (admitNonDuplicate : ChainState → BlockStruct → BlockStatus × ChainState)
      (st : ChainState), bs.header_hash ∈ st.knownHashes →
        receive_block admitNonDuplicate st bs = (.rejected .duplicate, st) := by
  constructor
  · simp [Blocks.received_block, hdup]
  · intro admitNonDuplicate st hmem
    simp [receive_block, hmem]

/-- C5 witness: a duplicate block is dropped by `received_block` and
rejected by the admission contract on a state that already holds it. -/
theorem received_block_duplicate_witness :
    Blocks.received_block (.ok ⟨hash0, hash1⟩) (fun _ => true) (fun _ => true)
        addr0 addr1 [] none = ⟨.ok (), none, []⟩ ∧
    receive_block (fun st _ => (.accepted, st)) ⟨[⟨hash0, hash1⟩], [], []⟩
        ⟨hash0, hash1⟩ = (.rejected .duplicate, ⟨[⟨hash0, hash1⟩], [], []⟩) :=
  ⟨(received_block_duplicate (fun _ => true) (fun _ => true) addr0 addr1 [] none
      ⟨hash0, hash1⟩ rfl).1,
   (received_block_duplicate (fun _ => true) (fun _ => true) addr0 addr1 [] none
      ⟨hash0, hash1⟩ rfl).2 (fun st _ => (.accepted, st)) ⟨[⟨hash0, hash1⟩], [], []⟩
      (by simp [ChainState.knownHashes])⟩

/-- C8: `Miner::add_coinbase_transaction` returns a `ConflictingNetworkId`
error and leaves the transaction list unchanged whenever some candidate
transaction's network id differs from the miner's configured network id
(the reported ids are those of the first such transaction); when all network
ids match, the coinbase transaction produced by the external
`create_coinbase_transaction` collaborator is appended and its records are
returned. -/
theorem add_coinbase_network_guard {R : Type} (network_id : Nat)
    (create_coinbase_transaction : List Tx → R × Tx) (transactions : List Tx) :
    ((∃ t ∈ transactions, t.network ≠ network_id) →
      (∃ t ∈ transactions,
        (Miner.add_coinbase_transaction network_id create_coinbase_transaction
            transactions).1 = .error (.conflictingNetworkId network_id t.network)) ∧
      (Miner.add_coinbase_transaction network_id create_coinbase_transaction
          transactions).2 = transactions) ∧
    ((∀ t ∈ transactions, t.network = network_id) →
      (Miner.add_coinbase_transaction network_id create_coinbase_transaction
          transactions).1 = .ok (create_coinbase_transaction transactions).1 ∧
      (Miner.add_coinbase_transaction network_id create_coinbase_transaction
          transactions).2 =
        transactions ++ [(create_coinbase_transaction transactions).2]) := by
  rcases hcc : create_coinbase_transaction transactions with ⟨records, tx⟩
  unfold Miner.add_coinbase_transaction
  cases hf : transactions.find? (fun t => t.network != network_id) with
  | some t =>
    constructor
    · exact fun _ => ⟨⟨t, List.mem_of_find?_eq_some hf, rfl⟩, rfl⟩
    · intro hall
      have h1 := List.find?_some hf
      have hne := bne_iff_ne.mp h1
      exact absurd (hall t (List.mem_of_find?_eq_some hf)) hne
  | none =>
    constructor
    · rintro ⟨t, ht, hne⟩
      have := List.find?_eq_none.mp hf t ht
      simp only [bne_iff_ne, Decidable.not_not] at this
      exact absurd this hne
    · exact fun _ => by rw [hcc]; exact ⟨rfl, rfl⟩

/-- C8 witness: a single candidate transaction with a mismatched network id
aborts the coinbase construction and leaves the list unchanged. -/
theorem add_coinbase_network_guard_witness :
    (∃ t ∈ [(⟨0, 1⟩ : Tx)],
      (Miner.add_coinbase_transaction 0 (fun _ => (PUnit.unit, (⟨0, 0⟩ : Tx)))
          [⟨0, 1⟩]).1 = .error (.conflictingNetworkId 0 t.network)) ∧
    (Miner.add_coinbase_transaction 0 (fun _ => (PUnit.unit, (⟨0, 0⟩ : Tx)))
        [(⟨0, 1⟩ : Tx)]).2 = [⟨0, 1⟩] :=
  (add_coinbase_network_guard 0 (fun _ => (PUnit.unit, ⟨0, 0⟩)) [⟨0, 1⟩]).1
    ⟨⟨0, 1⟩, by simp, by decide⟩

/-- C9: in the peer book, a successful `set_connecting(addr, nonce)` (the
transition to `Connecting`) records the handshake nonce for the peer, and a
successful `set_disconnected(addr)` (the transition to `Disconnected`)
clears it. -/
theorem handshake_nonce_lifecycle (pb : PeerBook) (addr : SocketAddr)
    (nonce : Fin (2 ^ 64)) (now : Nat) :
    ((pb.set_connecting addr nonce now).1 = .ok () →
      ((pb.set_connecting addr nonce now).2).handshake_nonce addr = some nonce) ∧
    ((pb.set_disconnected addr now).1 = .ok () →
      ((pb.set_disconnected addr now).2).handshake_nonce addr = none) := by
  have hfilter : ∀ l : List (SocketAddr × Fin (2 ^ 64)),
      (l.filter (fun q => q.1 != addr)).find? (fun q => q.1 == addr) = none := by
    intro l
    refine List.find?_eq_none.mpr fun q hq => ?_
    have := (List.mem_filter.mp hq).2
    simp only [bne_iff_ne, ne_eq, decide_eq_true_eq] at this
    simp [this]
  constructor
  · intro h
    unfold PeerBook.set_connecting at h ⊢
    rcases hset : (((pb.peers.find? (fun q => q.1 == addr)).map Prod.snd).getD
        (PeerInfo.new addr)).set_connecting now with ⟨res, updated⟩
    rw [hset] at h ⊢
    cases res with
    | error e => simp at h
    | ok u => simp [PeerBook.handshake_nonce]
  · intro h
    unfold PeerBook.set_disconnected at h ⊢
    rcases hset : (((pb.peers.find? (fun q => q.1 == addr)).map Prod.snd).getD
        (PeerInfo.new addr)).set_disconnected now with ⟨res, updated⟩
    rw [hset] at h ⊢
    cases res with
    | error e => simp at h
    | ok u => simp [PeerBook.handshake_nonce, hfilter]

/-- C9 witness: connecting a fresh peer stores its nonce; disconnecting a
connected peer clears it. -/
theorem handshake_nonce_lifecycle_witness :
    ((PeerBook.set_connecting ⟨addr0, [], []⟩ addr1 5 0).2).handshake_nonce addr1 =
      some 5 ∧
    ((PeerBook.set_disconnected
        ⟨addr0, [(addr1, { PeerInfo.new addr1 with status := .Connected })], [(addr1, 5)]⟩
        addr1 0).2).handshake_nonce addr1 = none :=
  ⟨(handshake_nonce_lifecycle ⟨addr0, [], []⟩ addr1 5 0).1 (by decide),
   (handshake_nonce_lifecycle
      ⟨addr0, [(addr1, { PeerInfo.new addr1 with status := .Connected })], [(addr1, 5)]⟩
      addr1 5 0).2 (by decide)⟩
